import Mathlib

/-!
Shallow embedding of the task-orchestration core in
`src/components/task_manager/src/lib.rs` (the `TaskManager` actor system):
the message/recipe data types, the association-list model of the
`HashMap<TaskId, Vec<RecipeStep>>` registry, the step-dispatch function
`send_next_step`, recipe construction `do_recipe_for_lsp_request`, the
coordinator `message_loop`, the worker-runtime loop spawned by
`spawn_actor`, and the reply-posting closures installed by `spawn`.

Mailbox receives are modelled as a list of `Option` values (`none` is a
failed receive, `some m` a delivered message); channel sends, logging and
thread joins are recorded as events in an output trace; a Rust `panic!`
is `Except.error`.
-/

/-- Model of `languageserver_types::Position` (two unsigned integers). -/
structure Position where
  line : Nat
  character : Nat
deriving DecidableEq, Repr

/-- Model of `url::Url` as its textual form. -/
abbrev Url := String

/-- Source: `pub type TaskId = usize;`. -/
abbrev TaskId := Nat

/-- Source enum `MsgFromManager<T>`: the control envelope wrapping every
message delivered to a worker's mailbox. -/
inductive MsgFromManager (T : Type) where
  | Shutdown : MsgFromManager T
  | Message : T → MsgFromManager T
deriving DecidableEq, Repr

/-- Source enum `LspRequest`. -/
inductive LspRequest where
  | TypeForPos : TaskId → Url → Position → LspRequest
  | OpenFile : Url → String → LspRequest
  | Initialize : TaskId → LspRequest
deriving DecidableEq, Repr

/-- Source enum `LspResponse`. -/
inductive LspResponse where
  | «Type» : TaskId → String → LspResponse
  | Completions : TaskId → List (String × String) → LspResponse
  | Initialized : TaskId → LspResponse
deriving DecidableEq, Repr

/-- Source enum `QueryRequest`. -/
inductive QueryRequest where
  | OpenFile : Url → String → QueryRequest
  | EditFile : String → QueryRequest
  | TypeAtPosition : TaskId → Url → Position → QueryRequest
deriving DecidableEq, Repr

/-- Source enum `QueryResponse`. -/
inductive QueryResponse where
  | «Type» : TaskId → String → QueryResponse
deriving DecidableEq, Repr

/-- Source enum `MsgToManager`: the coordinator's inbound message surface. -/
inductive MsgToManager where
  | QueryResponse : QueryResponse → MsgToManager
  | LspRequest : LspRequest → MsgToManager
  | Cancel : TaskId → MsgToManager
  | Shutdown : MsgToManager
deriving DecidableEq, Repr

/-- Source enum `RecipeStep`. -/
inductive RecipeStep where
  | GetTextForFile : RecipeStep
  | RespondWithType : RecipeStep
  | RespondWithInitialized : RecipeStep
deriving DecidableEq, Repr

/-- The `Box<dyn std::any::Any>` argument passed to `send_next_step`,
as the closed set of payload types the source ever boxes:
`(Url, Position)` in `do_recipe_for_lsp_request` for `TypeForPos`,
`String` in `message_loop` for a query response, and `()` for
`Initialize`. A `downcast::<T>` succeeds exactly on the matching
variant. -/
inductive Argument where
  | LocationArg : Url → Position → Argument
  | StringArg : String → Argument
  | UnitArg : Argument
deriving DecidableEq, Repr

/-- Observable effects of the coordinator thread, in program order:
channel sends to the two worker mailboxes, the `eprintln!` on a failed
receive, and the two `join_handle.join()` calls of
`join_worker_threads`. -/
inductive Output where
  | ToQuery : QueryRequest → Output
  | ToLsp : LspResponse → Output
  | ShutdownToLsp : Output
  | ShutdownToQuery : Output
  | LogHostReceiveError : Output
  | JoinQuery : Output
  | JoinLsp : Output
deriving DecidableEq, Repr

/-- The registry field `live_recipes: HashMap<TaskId, Vec<RecipeStep>>`,
modelled as an association list with at most one entry per key
(maintained by `insertEntry`). -/
abbrev Recipes := List (TaskId × List RecipeStep)

/-- Model of `HashMap::get` / `get_mut`: the value stored under `k`. -/
def getEntry (l : Recipes) (k : TaskId) : Option (List RecipeStep) :=
  match l with
  | [] => none
  | (k', v) :: rest => if k' = k then some v else getEntry rest k

/-- Model of `HashMap::remove`: drop every entry stored under `k`. -/
def eraseEntry (l : Recipes) (k : TaskId) : Recipes :=
  match l with
  | [] => []
  | (k', v) :: rest =>
      if k' = k then eraseEntry rest k else (k', v) :: eraseEntry rest k

/-- Model of `HashMap::insert`: replace whatever was stored under `k`
(also used for the in-place mutation of the vector behind `get_mut`). -/
def insertEntry (l : Recipes) (k : TaskId) (v : List RecipeStep) : Recipes :=
  (k, v) :: eraseEntry l k

/-- Source `TaskManager::send_next_step`. Looks `task_id` up in the
registry; if present and non-empty, removes the first step and executes
it against `argument`: `GetTextForFile` forwards `TypeAtPosition` to the
query system when the downcast to `(Url, Position)` succeeds (and does
nothing otherwise — the `if let Ok` has no else branch);
`RespondWithType` forwards `LspResponse::Type` when the downcast to
`String` succeeds and otherwise panics ("Internal error: malformed
RespondWithType"); `RespondWithInitialized` forwards
`LspResponse::Initialized` without inspecting the argument. An absent
`task_id` does nothing. -/
def send_next_step (recipes : Recipes) (task_id : TaskId) (argument : Argument) :
    Except String (Recipes × List Output) :=
  match getEntry recipes task_id with
  | some steps =>
      match steps with
      | [] => Except.ok (recipes, [])
      | next_step :: rest =>
          let recipes' := insertEntry recipes task_id rest
          match next_step with
          | RecipeStep.GetTextForFile =>
              match argument with
              | Argument.LocationArg u p =>
                  Except.ok (recipes',
                    [Output.ToQuery (QueryRequest.TypeAtPosition task_id u p)])
              | _ => Except.ok (recipes', [])
          | RecipeStep.RespondWithType =>
              match argument with
              | Argument.StringArg ty =>
                  Except.ok (recipes',
                    [Output.ToLsp (LspResponse.«Type» task_id ty)])
              | _ => Except.error "Internal error: malformed RespondWithType"
          | RecipeStep.RespondWithInitialized =>
              Except.ok (recipes',
                [Output.ToLsp (LspResponse.Initialized task_id)])
  | none => Except.ok (recipes, [])

/-- Source `TaskManager::do_recipe_for_lsp_request`. `TypeForPos`
inserts the two-step recipe `[GetTextForFile, RespondWithType]` and
immediately runs the first step with the request's `(url, position)`;
`OpenFile` bypasses the registry and forwards to the query system;
`Initialize` inserts the one-step recipe `[RespondWithInitialized]` and
runs it with the unit argument. -/
def do_recipe_for_lsp_request (recipes : Recipes) (lsp_request : LspRequest) :
    Except String (Recipes × List Output) :=
  match lsp_request with
  | LspRequest.TypeForPos task_id url position =>
      let recipe := [RecipeStep.GetTextForFile, RecipeStep.RespondWithType]
      let recipes' := insertEntry recipes task_id recipe
      send_next_step recipes' task_id (Argument.LocationArg url position)
  | LspRequest.OpenFile url contents =>
      Except.ok (recipes, [Output.ToQuery (QueryRequest.OpenFile url contents)])
  | LspRequest.Initialize task_id =>
      let recipe := [RecipeStep.RespondWithInitialized]
      let recipes' := insertEntry recipes task_id recipe
      send_next_step recipes' task_id Argument.UnitArg

/-- Source `TaskManager::join_worker_threads`: join the query system's
thread, then the lsp responder's. -/
def join_worker_threads : List Output :=
  [Output.JoinQuery, Output.JoinLsp]

/-- Source `TaskManager::message_loop` over a finite prefix of mailbox
receive results (`none` is `Err(_)`). A query response advances the
recipe with the `String` payload; an lsp request goes through recipe
construction; `Cancel` removes the registry entry; `Shutdown` sends the
sentinel to the lsp responder then the query system, breaks, and
`join_worker_threads` runs; `Err(_)` logs and continues. An exhausted
input list leaves the loop blocked on its mailbox (no joins recorded). -/
def message_loop (recipes : Recipes) (inputs : List (Option MsgToManager)) :
    Except String (Recipes × List Output) :=
  match inputs with
  | [] => Except.ok (recipes, [])
  | some (MsgToManager.QueryResponse (QueryResponse.«Type» task_id contents)) :: rest =>
      match send_next_step recipes task_id (Argument.StringArg contents) with
      | Except.error e => Except.error e
      | Except.ok (r, out) =>
          match message_loop r rest with
          | Except.error e => Except.error e
          | Except.ok (r2, out2) => Except.ok (r2, out ++ out2)
  | some (MsgToManager.LspRequest lsp_request) :: rest =>
      match do_recipe_for_lsp_request recipes lsp_request with
      | Except.error e => Except.error e
      | Except.ok (r, out) =>
          match message_loop r rest with
          | Except.error e => Except.error e
          | Except.ok (r2, out2) => Except.ok (r2, out ++ out2)
  | some (MsgToManager.Cancel task_id) :: rest =>
      message_loop (eraseEntry recipes task_id) rest
  | some MsgToManager.Shutdown :: _ =>
      Except.ok (recipes,
        [Output.ShutdownToLsp, Output.ShutdownToQuery] ++ join_worker_threads)
  | none :: rest =>
      match message_loop recipes rest with
      | Except.error e => Except.error e
      | Except.ok (r2, out2) => Except.ok (r2, Output.LogHostReceiveError :: out2)

/-- Calls the worker runtime's loop makes into the wrapped `Actor`,
plus its `eprintln!`: `receive_message` on a payload, the (never
emitted by `spawn_actor`) `shutdown()` trait hook, and the log line
"Failure during top-level message receive". -/
inductive ActorEvent (M : Type) where
  | ReceiveMessage : M → ActorEvent M
  | ShutdownHook : ActorEvent M
  | LogActorReceiveError : ActorEvent M
deriving DecidableEq, Repr

/-- Boolean recogniser for the `shutdown()` hook event. -/
def isShutdownHook {M : Type} : ActorEvent M → Bool
  | ActorEvent.ShutdownHook => true
  | _ => false

/-- Source: the thread body spawned by `TaskManager::spawn_actor`, over
a finite prefix of mailbox receive results (`none` is `Err(_)`).
Returns the trace of actor events and whether the loop exited:
`Ok(Message(m))` calls `receive_message` and continues; `Ok(Shutdown)`
breaks; `Err(_)` logs and breaks. -/
def spawn_actor_loop {M : Type} (inputs : List (Option (MsgFromManager M))) :
    List (ActorEvent M) × Bool :=
  match inputs with
  | [] => ([], false)
  | some (MsgFromManager.Message m) :: rest =>
      let r := spawn_actor_loop rest
      (ActorEvent.ReceiveMessage m :: r.1, r.2)
  | some MsgFromManager.Shutdown :: _ => ([], true)
  | none :: _ => ([ActorEvent.LogActorReceiveError], true)

/-- Source: the closure `TaskManager::spawn` passes to
`query_system.startup` — each posted `QueryResponse` is sent into the
coordinator's mailbox as `MsgToManager::QueryResponse`. -/
def query_system_post (x : QueryResponse) : List MsgToManager :=
  [MsgToManager.QueryResponse x]

/-- Source: the closure `TaskManager::spawn` passes to
`lsp_responder.startup` — `move |_| {}`, which drops its argument and
delivers nothing to the coordinator's mailbox. -/
def lsp_responder_post {α : Type} (_ : α) : List MsgToManager :=
  []

/-! Helper lemmas about the association-list registry and dispatch. -/

/-- Looking up a key right after inserting it yields the inserted value. -/
theorem getEntry_insertEntry (l : Recipes) (k : TaskId) (v : List RecipeStep) :
    getEntry (insertEntry l k v) k = some v := by
  simp [insertEntry, getEntry]

/-- Looking up a key right after erasing it yields nothing. -/
theorem getEntry_eraseEntry (l : Recipes) (k : TaskId) :
    getEntry (eraseEntry l k) k = none := by
  induction l with
  | nil => rfl
  | cons hd tl ih =>
      obtain ⟨k', v⟩ := hd
      by_cases h : k' = k
      · simpa [eraseEntry, h] using ih
      · simpa [eraseEntry, getEntry, h] using ih

/-- Erasing a key twice is the same as erasing it once. -/
theorem eraseEntry_eraseEntry (l : Recipes) (k : TaskId) :
    eraseEntry (eraseEntry l k) k = eraseEntry l k := by
  induction l with
  | nil => rfl
  | cons hd tl ih =>
      obtain ⟨k', v⟩ := hd
      by_cases h : k' = k
      · simpa [eraseEntry, h] using ih
      · simp [eraseEntry, h, ih]

/-- Inserting under a key twice keeps only the second value. -/
theorem insertEntry_insertEntry (l : Recipes) (k : TaskId)
    (v w : List RecipeStep) :
    insertEntry (insertEntry l k v) k w = insertEntry l k w := by
  simp [insertEntry, eraseEntry, eraseEntry_eraseEntry]

/-- Dispatch on a task id with no registry entry returns the state
unchanged and emits nothing. -/
theorem send_next_step_absent (recipes : Recipes) (task_id : TaskId)
    (argument : Argument) (h : getEntry recipes task_id = none) :
    send_next_step recipes task_id argument = Except.ok (recipes, []) := by
  simp [send_next_step, h]

/-- Dispatch on a task id whose registry entry is an empty recipe
returns the state unchanged and emits nothing. -/
theorem send_next_step_empty (recipes : Recipes) (task_id : TaskId)
    (argument : Argument) (h : getEntry recipes task_id = some []) :
    send_next_step recipes task_id argument = Except.ok (recipes, []) := by
  simp [send_next_step, h]

/-! Claim theorems. -/

/-- C5: for every TaskId absent from the registry (never inserted,
already completed and cleaned up, or cancelled) and every argument,
`send_next_step` is a silent no-op: it does not panic (returns `ok`),
emits no message to any worker, and leaves the registry unchanged. -/
theorem unknown_task_dispatch_noop (recipes : Recipes) (task_id : TaskId)
    (argument : Argument) (h : getEntry recipes task_id = none) :
    send_next_step recipes task_id argument = Except.ok (recipes, []) :=
  send_next_step_absent recipes task_id argument h

/-- Witness for C5: task id 7 has no entry in a registry holding only
task 3, and dispatch for it is a silent no-op. -/
theorem unknown_task_dispatch_noop_witness :
    getEntry [(3, [RecipeStep.RespondWithType])] 7 = none ∧
    send_next_step [(3, [RecipeStep.RespondWithType])] 7 Argument.UnitArg =
      Except.ok ([(3, [RecipeStep.RespondWithType])], []) :=
  ⟨rfl, unknown_task_dispatch_noop [(3, [RecipeStep.RespondWithType])] 7
    Argument.UnitArg rfl⟩

/-- C6: processing `Cancel(task_id)` removes that task's entry from the
registry unconditionally and emits nothing to any worker; a query reply
for that task arriving after the cancel also produces no outbound
message. -/
theorem cancel_removes_and_silences (recipes : Recipes) (task_id : TaskId)
    (s : String) :
    getEntry (eraseEntry recipes task_id) task_id = none ∧
    message_loop recipes
      [some (MsgToManager.Cancel task_id),
       some (MsgToManager.QueryResponse (QueryResponse.«Type» task_id s))] =
      Except.ok (eraseEntry recipes task_id, []) := by
  refine ⟨getEntry_eraseEntry recipes task_id, ?_⟩
  simp [message_loop,
    send_next_step_absent _ _ _ (getEntry_eraseEntry recipes task_id)]

/-- C9: on receiving `Shutdown`, the coordinator sends the shutdown
sentinel to the lsp responder's and the query system's mailboxes, exits
its loop without processing any further input, and then joins both
worker threads, so both join events precede the coordinator's return. -/
theorem shutdown_sends_sentinels_then_joins (recipes : Recipes)
    (rest : List (Option MsgToManager)) :
    message_loop recipes (some MsgToManager.Shutdown :: rest) =
      Except.ok (recipes,
        [Output.ShutdownToLsp, Output.ShutdownToQuery,
         Output.JoinQuery, Output.JoinLsp]) :=
  rfl

/-- C4: a `TypeForPos(t, u, p)` request builds the two-step recipe
(fetch then emit), registers it under `t`, and immediately runs the
fetch step with the request's own payload, sending `TypeAtPosition(t,
u, p)` to the query system and leaving one step registered; when the
reply `QueryResponse::Type(t, s)` arrives, exactly one
`LspResponse::Type(t, s)` goes to the lsp responder, and any further
reply for `t` produces no message at all. -/
theorem type_for_pos_request_flow (t : TaskId) (u : Url) (p : Position)
    (s : String) :
    message_loop [] [some (MsgToManager.LspRequest (LspRequest.TypeForPos t u p))] =
      Except.ok ([(t, [RecipeStep.RespondWithType])],
        [Output.ToQuery (QueryRequest.TypeAtPosition t u p)]) ∧
    message_loop []
      [some (MsgToManager.LspRequest (LspRequest.TypeForPos t u p)),
       some (MsgToManager.QueryResponse (QueryResponse.«Type» t s))] =
      Except.ok ([(t, [])],
        [Output.ToQuery (QueryRequest.TypeAtPosition t u p),
         Output.ToLsp (LspResponse.«Type» t s)]) ∧
    (∀ s' : String,
      send_next_step [(t, [])] t (Argument.StringArg s') =
        Except.ok ([(t, [])], [])) := by
  refine ⟨?_, ?_, ?_⟩
  · simp [message_loop, do_recipe_for_lsp_request, send_next_step,
      insertEntry, eraseEntry, getEntry]
  · simp [message_loop, do_recipe_for_lsp_request, send_next_step,
      insertEntry, eraseEntry, getEntry]
  · intro s'
    simp [send_next_step, getEntry]

/-- C10: when a `TypeForPos` or `Initialize` request carries a TaskId
that already has a live (non-empty) recipe in the registry, recipe
construction silently overwrites the old entry: the result is exactly
the new recipe's registration and the new recipe's first-step message,
with the old steps discarded, no extra message and no error. -/
theorem reused_taskid_overwrites (recipes : Recipes) (t : TaskId)
    (st : RecipeStep) (sts : List RecipeStep) (u : Url) (p : Position)
    (_h : getEntry recipes t = some (st :: sts)) :
    do_recipe_for_lsp_request recipes (LspRequest.TypeForPos t u p) =
      Except.ok (insertEntry recipes t [RecipeStep.RespondWithType],
        [Output.ToQuery (QueryRequest.TypeAtPosition t u p)]) ∧
    getEntry (insertEntry recipes t [RecipeStep.RespondWithType]) t =
      some [RecipeStep.RespondWithType] ∧
    do_recipe_for_lsp_request recipes (LspRequest.Initialize t) =
      Except.ok (insertEntry recipes t [],
        [Output.ToLsp (LspResponse.Initialized t)]) ∧
    getEntry (insertEntry recipes t []) t = some [] := by
  refine ⟨?_, getEntry_insertEntry _ _ _, ?_, getEntry_insertEntry _ _ _⟩
  · simp [do_recipe_for_lsp_request, send_next_step, getEntry_insertEntry,
      insertEntry_insertEntry]
  · simp [do_recipe_for_lsp_request, send_next_step, getEntry_insertEntry,
      insertEntry_insertEntry]

/-- Witness for C10: task 0 holds the live one-step recipe
`[GetTextForFile]` and a second `TypeForPos` request for task 0
overwrites it. -/
theorem reused_taskid_overwrites_witness :
    do_recipe_for_lsp_request [(0, [RecipeStep.GetTextForFile])]
        (LspRequest.TypeForPos 0 "a.src" ⟨3, 5⟩) =
      Except.ok ([(0, [RecipeStep.RespondWithType])],
        [Output.ToQuery (QueryRequest.TypeAtPosition 0 "a.src" ⟨3, 5⟩)]) ∧
    do_recipe_for_lsp_request [(0, [RecipeStep.GetTextForFile])]
        (LspRequest.Initialize 0) =
      Except.ok ([(0, [])], [Output.ToLsp (LspResponse.Initialized 0)]) := by
  have h := reused_taskid_overwrites [(0, [RecipeStep.GetTextForFile])] 0
    RecipeStep.GetTextForFile [] "a.src" ⟨3, 5⟩ rfl
  exact ⟨by simpa [insertEntry, eraseEntry] using h.1,
         by simpa [insertEntry, eraseEntry] using h.2.2.1⟩

/-- Counterexample for C7: running task 0's two-step type-query recipe
to completion leaves the registry holding an empty-but-present entry
for task 0 — the entry is not removed when the step sequence becomes
empty. -/
theorem empty_recipe_entry_remains_cex :
    message_loop []
      [some (MsgToManager.LspRequest (LspRequest.TypeForPos 0 "a.src" ⟨3, 5⟩)),
       some (MsgToManager.QueryResponse (QueryResponse.«Type» 0 "Int"))] =
      Except.ok ([(0, [])],
        [Output.ToQuery (QueryRequest.TypeAtPosition 0 "a.src" ⟨3, 5⟩),
         Output.ToLsp (LspResponse.«Type» 0 "Int")]) ∧
    getEntry [(0, [])] 0 = some [] :=
  ⟨rfl, rfl⟩

/-- C7 as amended: executing the last step of a recipe leaves the entry
registered as an empty list rather than removing it, and an
empty-but-present entry is observationally absent for dispatch: every
subsequent `send_next_step` on it returns the state unchanged with no
message and no panic. -/
theorem empty_recipe_entry_noop (recipes : Recipes) (t : TaskId) (s : String) :
    (getEntry recipes t = some [RecipeStep.RespondWithType] →
      send_next_step recipes t (Argument.StringArg s) =
        Except.ok (insertEntry recipes t [],
          [Output.ToLsp (LspResponse.«Type» t s)]) ∧
      getEntry (insertEntry recipes t []) t = some []) ∧
    (getEntry recipes t = some [] →
      ∀ argument : Argument,
        send_next_step recipes t argument = Except.ok (recipes, [])) := by
  constructor
  · intro h
    exact ⟨by simp [send_next_step, h], getEntry_insertEntry _ _ _⟩
  · intro h argument
    exact send_next_step_empty recipes t argument h

/-- Witness for C7's amended claim: task 0's last step runs and leaves
the empty entry `(0, [])` behind; dispatch on the empty entry of task 1
is a no-op. -/
theorem empty_recipe_entry_noop_witness :
    (send_next_step [(0, [RecipeStep.RespondWithType])] 0
        (Argument.StringArg "Int") =
      Except.ok ([(0, [])], [Output.ToLsp (LspResponse.«Type» 0 "Int")])) ∧
    send_next_step [(1, [])] 1 Argument.UnitArg = Except.ok ([(1, [])], []) := by
  constructor
  · have h := (empty_recipe_entry_noop [(0, [RecipeStep.RespondWithType])]
      0 "Int").1 rfl
    simpa [insertEntry, eraseEntry] using h.1
  · exact (empty_recipe_entry_noop [(1, [])] 1 "x").2 rfl Argument.UnitArg

/-- Counterexample for C2: a fetch step (`GetTextForFile`) fed a
mismatched argument (a `String` instead of the expected `(Url,
Position)`) neither panics nor emits anything: the step is silently
consumed and dispatch returns `ok` — the implementation does not abort
loudly for every step kind. -/
theorem fetch_step_mismatch_silent_cex :
    send_next_step [(0, [RecipeStep.GetTextForFile])] 0
        (Argument.StringArg "x") =
      Except.ok ([(0, [])], []) :=
  rfl

/-- C2 as amended: an argument-shape mismatch aborts loudly (panics)
only for the `RespondWithType` emit step; for the `GetTextForFile`
fetch step a mismatched argument is silently dropped — the step is
still consumed and no message is emitted. -/
theorem argument_mismatch_per_step (recipes : Recipes) (t : TaskId)
    (rest : List RecipeStep) :
    (getEntry recipes t = some (RecipeStep.RespondWithType :: rest) →
      (∀ (u : Url) (p : Position),
        send_next_step recipes t (Argument.LocationArg u p) =
          Except.error "Internal error: malformed RespondWithType") ∧
      send_next_step recipes t Argument.UnitArg =
        Except.error "Internal error: malformed RespondWithType") ∧
    (getEntry recipes t = some (RecipeStep.GetTextForFile :: rest) →
      (∀ s : String,
        send_next_step recipes t (Argument.StringArg s) =
          Except.ok (insertEntry recipes t rest, [])) ∧
      send_next_step recipes t Argument.UnitArg =
        Except.ok (insertEntry recipes t rest, [])) := by
  constructor
  · intro h
    exact ⟨fun u p => by simp [send_next_step, h], by simp [send_next_step, h]⟩
  · intro h
    exact ⟨fun s => by simp [send_next_step, h], by simp [send_next_step, h]⟩

/-- Witness for C2's amended claim: with task 0 at an emit step, a unit
argument panics; with task 1 at a fetch step, a unit argument is
silently dropped. -/
theorem argument_mismatch_per_step_witness :
    send_next_step [(0, [RecipeStep.RespondWithType])] 0 Argument.UnitArg =
      Except.error "Internal error: malformed RespondWithType" ∧
    send_next_step [(1, [RecipeStep.GetTextForFile])] 1 Argument.UnitArg =
      Except.ok ([(1, [])], []) := by
  constructor
  · exact ((argument_mismatch_per_step [(0, [RecipeStep.RespondWithType])]
      0 []).1 rfl).2
  · have h := ((argument_mismatch_per_step [(1, [RecipeStep.GetTextForFile])]
      1 []).2 rfl).2
    simpa [insertEntry, eraseEntry] using h

/-- Counterexample for C3: the reply function `spawn` hands to the lsp
responder's `startup` is `move |_| {}` — a message the response worker
posts through it delivers nothing into the coordinator's mailbox. -/
theorem lsp_responder_post_dropped_cex :
    lsp_responder_post (LspResponse.Initialized 0) = ([] : List MsgToManager) :=
  rfl

/-- C3 as amended: `spawn` wires only the analysis worker's reply path
into the coordinator's mailbox — every `QueryResponse` it posts arrives
as `MsgToManager::QueryResponse` and is handled by dispatch exactly as
`send_next_step` — while the response worker's captured reply function
discards every message it is given. -/
theorem spawn_reply_wiring (x : QueryResponse) (recipes : Recipes)
    (t : TaskId) (s : String) :
    query_system_post x = [MsgToManager.QueryResponse x] ∧
    (∀ (α : Type) (y : α), lsp_responder_post y = []) ∧
    message_loop recipes
        (List.map some (query_system_post (QueryResponse.«Type» t s))) =
      send_next_step recipes t (Argument.StringArg s) := by
  refine ⟨rfl, fun α y => rfl, ?_⟩
  rcases h : send_next_step recipes t (Argument.StringArg s) with e | pr
  · simp [query_system_post, message_loop, h]
  · obtain ⟨r, out⟩ := pr
    simp [query_system_post, message_loop, h]

/-- Counterexample for C8: a worker runtime's loop is torn down by a
single failed mailbox receive — it logs and exits, and a message queued
behind the failure is never delivered to the actor. -/
theorem worker_recv_error_exits_cex :
    spawn_actor_loop (M := Unit) [none, some (MsgFromManager.Message ())] =
      ([ActorEvent.LogActorReceiveError], true) :=
  rfl

/-- C8 as amended: a single failed mailbox receive is transient only on
the coordinator's loop, which logs it and continues with the remaining
input unchanged; a worker runtime's loop logs a failed receive and then
exits. -/
theorem recv_error_loop_behaviour (recipes : Recipes)
    (rest : List (Option MsgToManager)) :
    message_loop recipes (none :: rest) =
      Except.map (fun pr => (pr.1, Output.LogHostReceiveError :: pr.2))
        (message_loop recipes rest) ∧
    (∀ (M : Type) (wrest : List (Option (MsgFromManager M))),
      spawn_actor_loop (none :: wrest) =
        ([ActorEvent.LogActorReceiveError], true)) := by
  refine ⟨?_, fun M wrest => rfl⟩
  rcases h : message_loop recipes rest with e | pr
  · simp [message_loop, h, Except.map]
  · obtain ⟨r, out⟩ := pr
    simp [message_loop, h, Except.map]

/-- C1 (the code as it stands): when a worker runtime's loop receives
the `Shutdown` sentinel it exits at once with an empty call trace — the
wrapped actor's `shutdown()` hook is not invoked there, and indeed no
input sequence ever makes `spawn_actor`'s loop call `shutdown()`. -/
theorem spawn_actor_loop_never_calls_shutdown_hook :
    spawn_actor_loop (M := Unit) [some MsgFromManager.Shutdown] = ([], true) ∧
    ∀ (M : Type) (inputs : List (Option (MsgFromManager M))),
      List.countP (fun e => isShutdownHook e) (spawn_actor_loop inputs).1 = 0 := by
  refine ⟨rfl, fun M inputs => ?_⟩
  induction inputs with
  | nil => rfl
  | cons hd tl ih =>
      match hd with
      | some (MsgFromManager.Message m) =>
          show List.countP (fun e => isShutdownHook e)
            (ActorEvent.ReceiveMessage m :: (spawn_actor_loop tl).1) = 0
          rw [List.countP_cons]
          simpa [isShutdownHook] using ih
      | some MsgFromManager.Shutdown => rfl
      | none => rfl
